import Mathlib

/-!
# colima vmnet daemon runner: start / stop lifecycle

A shallow embedding of `cmd/vmnet/vmnet.go`.

Modelling conventions

* A Go `string` is a Lean `String`.  The only byte-level operations the program
  performs (`strings.TrimSuffix`, `filepath.Join`) look at the ASCII characters
  `/` and `.` and at ASCII suffixes, so working on code points is the same as
  working on the bytes of a valid UTF-8 string.
* A Go `error` is `Option Error`; `none` is `nil`.
* The operating system and the packages that are not part of this file
  (`network`, `cli`, `go-daemon`) are an `Env` of oracles.  They may return
  anything and, where they touch the disk, may change the filesystem in any way.
* The program is written in explicit state passing style over a `World`:
  the process-wide profile, the filesystem as seen by `os.Stat`, the trace of
  externally visible effects, and the log lines written through logrus.
-/

namespace Vmnet

/-! ## Data model -/

/-- Go error values.  `wrapf` is an error built by `fmt.Errorf` with a `%w` verb. -/
inductive Error where
  | ext (msg : String)
  | wrapf (format : String) (inner : Error)
  deriving DecidableEq, Repr

/-- The part of `os.FileInfo` the program reads. -/
structure FileInfo where
  IsDir : Bool
  deriving DecidableEq, Repr

/-- The filesystem as `os.Stat` sees it: `none` means that stat returns an error. -/
abbrev FS := String → Option FileInfo

/-- The fields of `daemon.Context` that the program fills in. -/
structure Context where
  PidFileName : String
  PidFilePerm : Nat
  LogFileName : String
  LogFilePerm : Nat
  deriving DecidableEq, Repr

/-- A handle on a spawned process (`*os.Process`), identified by its pid. -/
structure Process where
  Pid : Nat
  deriving DecidableEq, Repr

/-- Externally visible effects, in the order in which the program performs them. -/
inductive Effect where
  | remove (name : String)
  | reborn (ctx : Context)
  | release (ctx : Context)
  | run (name : String) (args : List String)
  deriving DecidableEq, Repr

/-- Logrus levels used by the program. -/
inductive Level where
  | info
  | warn
  | error
  deriving DecidableEq, Repr

/-- One logrus call: level, text and the error value passed along, if any. -/
structure LogEntry where
  level : Level
  msg : String
  err : Option Error
  deriving DecidableEq, Repr

/-- The result type of `info()`. -/
structure daemonInfo where
  PidFile : String
  LogFile : String
  VmnetPidFile : String
  deriving DecidableEq, Repr

/-- The state threaded through the program. -/
structure World where
  profile : String
  fs : FS
  trace : List Effect
  logs : List LogEntry

/-- Everything the program calls but does not define.
`Dir` and `PTPFile` are `network.Dir()` and `network.PTPFile()` under the current profile,
`Reborn` and `Release` are the methods of `daemon.Context`, `Remove` is `os.Remove`: its
error and the filesystem it leaves behind on success (other paths that name the removed
entry, such as another spelling of the path or a symbolic link to it, stop resolving too),
`Run` is `cli.CommandInteractive(name, args...).Run()`. -/
structure Env where
  VmnetBinary : String
  VmnetGateway : String
  VmnetDHCPEnd : String
  Dir : String → String × Option Error
  PTPFile : String → String × Option Error
  Reborn : Context → FS → (Option Process × Option Error) × FS
  Release : Context → FS → Option Error × FS
  Remove : String → FS → Option Error × FS
  Run : String → List String → FS → Option Error × FS

/-! ## Standard library functions used by the program -/

/-- The Go function `strings.TrimSuffix`: drop `suffix` from the end of `s` when `s` ends with it. -/
def TrimSuffix (s suffix : String) : String :=
  if suffix.data.isSuffixOf s.data then
    ⟨s.data.take (s.data.length - suffix.data.length)⟩
  else s

/-- The path separator test `os.IsPathSeparator` on Unix. -/
def IsPathSeparator (c : Char) : Bool := c == '/'

/-- The inner loop of the `..` case of `filepath.Clean`, after the first `out.w--`:
`for out.w > dotdot && !os.IsPathSeparator(out.index(out.w)) { out.w-- }`.
Returns the final value of `out.w`. -/
def backtrack (buf : List Char) (dotdot : Nat) : Nat → Nat
  | 0 => 0
  | w + 1 =>
    if dotdot < w + 1 && !IsPathSeparator (buf.getD (w + 1) '/') then backtrack buf dotdot w
    else w + 1

/-- The main loop `for r < n` of `filepath.Clean`.  `rest` is `path[r:]`, `buf` is the
contents of the output buffer (so `out.w` is `buf.length`), and the first argument bounds
the number of iterations; every iteration consumes at least one byte of `rest`. -/
def cleanLoop (rooted : Bool) : Nat → List Char → List Char → Nat → List Char
  | 0, _, buf, _ => buf
  | _ + 1, [], buf, _ => buf
  | fuel + 1, c :: t, buf, dotdot =>
    if IsPathSeparator c then
      -- empty path element
      cleanLoop rooted fuel t buf dotdot
    else if c == '.' && (t.isEmpty || IsPathSeparator (t.headD '/')) then
      -- . element
      cleanLoop rooted fuel t buf dotdot
    else if c == '.' && t.headD '/' == '.' &&
        (t.tail.isEmpty || IsPathSeparator (t.tail.headD '/')) then
      -- .. element: remove to last separator
      if dotdot < buf.length then
        -- can backtrack
        cleanLoop rooted fuel t.tail (buf.take (backtrack buf dotdot (buf.length - 1))) dotdot
      else if !rooted then
        -- cannot backtrack, but not rooted, so append .. element
        let buf1 := if 0 < buf.length then buf ++ ['/'] else buf
        let buf2 := buf1 ++ ['.', '.']
        cleanLoop rooted fuel t.tail buf2 buf2.length
      else
        cleanLoop rooted fuel t.tail buf dotdot
    else
      -- real path element: add slash if needed, then copy the element
      let buf1 :=
        if (rooted && buf.length != 1) || (!rooted && buf.length != 0) then buf ++ ['/'] else buf
      let elem := (c :: t).takeWhile (fun x => !IsPathSeparator x)
      cleanLoop rooted fuel ((c :: t).dropWhile (fun x => !IsPathSeparator x)) (buf1 ++ elem) dotdot

/-- The Go function `filepath.Clean` on Unix (no volume names, `FromSlash` is the identity). -/
def Clean (path : String) : String :=
  if path.data.isEmpty then "."
  else
    let rooted := IsPathSeparator (path.data.headD '.')
    let out :=
      if rooted then cleanLoop rooted path.data.length path.data.tail ['/'] 1
      else cleanLoop rooted path.data.length path.data [] 0
    if out.isEmpty then "." else ⟨out⟩

/-- The Go function `filepath.Join` on Unix: empty leading elements are skipped, the rest is
joined with the separator and cleaned; the result is empty when every element is empty. -/
def Join : List String → String
  | [] => ""
  | e :: rest => if e ≠ "" then Clean ("/".intercalate (e :: rest)) else Join rest

/-! ## The program -/

/-- The call `config.SetProfile(name)`: sets the process-wide profile. -/
def SetProfile (name : String) (w : World) : World :=
  { w with profile := name }

/-- One logrus call. -/
def logrus (level : Level) (msg : String) (err : Option Error) (w : World) : World :=
  { w with logs := w.logs ++ [⟨level, msg, err⟩] }

/-- The call `os.Stat(name)`: `none` is a non-nil error. -/
def osStat (name : String) (w : World) : Option FileInfo :=
  w.fs name

/-- The call `os.Remove(name)`: one removal attempt.  When it succeeds, `name` no longer
resolves and every other path is as the operating system left it; when it fails nothing
changes. -/
def osRemove (env : Env) (name : String) (w : World) : Option Error × World :=
  let w1 := { w with trace := w.trace ++ [Effect.remove name] }
  let r := env.Remove name w.fs
  match r.1 with
  | some e => (some e, w1)
  | none => (none, { w1 with fs := fun q => if q = name then none else r.2 q })

/-- The call `cli.CommandInteractive(name, args...).Run()`. -/
def CommandRun (env : Env) (name : String) (args : List String) (w : World) :
    Option Error × World :=
  let r := env.Run name args w.fs
  (r.1, { w with fs := r.2, trace := w.trace ++ [Effect.run name args] })

/-- The function `forceDeleteFileIfExists`. -/
def forceDeleteFileIfExists (env : Env) (name : String) (w : World) : Option Error × World :=
  match osStat name w with
  | some stat => if !stat.IsDir then osRemove env name w else (none, w)
  | none => (none, w)

/-- The function `info`.  The world is returned as it was received: the function only
reads the profile through `network.Dir()`. -/
def info (env : Env) (w : World) : (daemonInfo × Option Error) × World :=
  let r := env.Dir w.profile
  match r.2 with
  | some err => ((⟨"", "", ""⟩, some err), w)
  | none =>
    ((⟨Join [r.1, "colima-daemon.pid"], Join [r.1, "vmnet.stderr"], Join [r.1, "vmnet.pid"]⟩,
      none), w)

/-- The `daemon.Context` that `daemonize` builds from the paths of `info`. -/
def daemonContext (i : daemonInfo) : Context :=
  { PidFileName := i.PidFile, PidFilePerm := 0o644, LogFileName := i.LogFile, LogFilePerm := 0o644 }

/-- The function `daemonize`.  The deferred `ctx.Release()` runs when `daemonize` itself
returns, that is after the three log lines and before the caller continues. -/
def daemonize (env : Env) (w : World) : (Bool × Option Error) × World :=
  let r := info env w
  match r.1.2 with
  | some err => ((false, some err), r.2)
  | none =>
    let ctx := daemonContext r.1.1
    let rb := env.Reborn ctx r.2.fs
    let w1 := { r.2 with fs := rb.2, trace := r.2.trace ++ [Effect.reborn ctx] }
    match rb.1.2 with
    | some err => ((false, some (Error.wrapf "error running colima-vmnet as daemon: %w" err)), w1)
    | none =>
      match rb.1.1 with
      | some _ => ((false, none), w1)
      | none =>
        let w2 := logrus Level.info "- - - - - - - - - - - - - - -" none w1
        let w3 := logrus Level.info "colima-vmnet daemon started" none w2
        let w4 := logrus Level.info
          ("Run `sudo pkill -F " ++ r.1.1.PidFile ++ "` to kill the daemon") none w3
        -- deferred call, executed on return
        let rl := env.Release ctx w4.fs
        ((true, none), { w4 with fs := rl.2, trace := w4.trace ++ [Effect.release ctx] })

/-- The argument list of the supervised binary built by `startCmd`. -/
def vmnetArgs (env : Env) (ptp : String) : List String :=
  ["--vmnet-mode", "shared",
   "--vmnet-gateway", env.VmnetGateway,
   "--vmnet-dhcp-end", env.VmnetDHCPEnd,
   "--pidfile", TrimSuffix ptp ".ptp" ++ ".pid",
   ptp ++ "[]"]

/-- The `RunE` function of `startCmd`; `arg0` is `args[0]` (cobra checks `ExactArgs(1)`). -/
def startCmd.RunE (env : Env) (arg0 : String) (w : World) : Option Error × World :=
  let w := SetProfile arg0 w
  let d := daemonize env w
  match d.1.2 with
  | some err => (some err, d.2)
  | none =>
    if !d.1.1 then (none, d.2)
    else
      let p := env.PTPFile d.2.profile
      let w1 :=
        match p.2 with
        | some err => logrus Level.warn "ptp file error: %w" (some err) d.2
        | none => d.2
      let ptp := p.1
      -- delete existing sockets if exist, errors ignored on purpose
      let w2 := (forceDeleteFileIfExists env ptp w1).2
      let w3 := (forceDeleteFileIfExists env (ptp ++ "+") w2).2
      CommandRun env env.VmnetBinary (vmnetArgs env ptp) w3

/-- The body of the `for _, pidFile := range ...` loop of `stopCmd`, over the remaining
pid files. -/
def stopLoop (env : Env) : List String → World → World
  | [], w => w
  | pidFile :: rest, w =>
    match osStat pidFile w with
    | none =>
      -- there is no pidfile, process already dead
      stopLoop env rest w
    | some _ =>
      let r := CommandRun env "pkill" ["-F", pidFile] w
      match r.1 with
      | some err =>
        stopLoop env rest
          (logrus Level.error "" (some (Error.wrapf "error killing process: %w" err)) r.2)
      | none => stopLoop env rest r.2

/-- The `RunE` function of `stopCmd`; `arg0` is `args[0]` (cobra checks `ExactArgs(1)`). -/
def stopCmd.RunE (env : Env) (arg0 : String) (w : World) : Option Error × World :=
  let w := SetProfile arg0 w
  let r := info env w
  match r.1.2 with
  | some err => (some err, r.2)
  | none => (none, stopLoop env [r.1.1.VmnetPidFile, r.1.1.PidFile] r.2)

/-! ## Sample environments -/

/-- A session directory. -/
def sampleDir : String := "/home/u/.colima/dev/network"

/-- An environment seen by the detached child: `Reborn` returns neither a handle nor an
error, `Release` deletes the pid file, the supervised binary exits with an error, and
pkill fails. -/
def childEnv : Env where
  VmnetBinary := "/opt/colima/bin/vde_vmnet"
  VmnetGateway := "192.168.106.1"
  VmnetDHCPEnd := "192.168.106.254"
  Dir := fun _ => (sampleDir, none)
  PTPFile := fun _ => (sampleDir ++ "/vmnet.ptp", none)
  Reborn := fun ctx fs => ((none, none), fun q => if q = ctx.PidFileName then some ⟨false⟩ else fs q)
  Release := fun ctx fs => (none, fun q => if q = ctx.PidFileName then none else fs q)
  Remove := fun _ fs => (none, fs)
  Run := fun _ _ fs => (some (Error.ext "exit status 1"), fs)

/-- An environment seen by the invoking process: `Reborn` returns the handle of the child. -/
def parentEnv : Env :=
  { childEnv with Reborn := fun _ fs => ((some ⟨4242⟩, none), fs) }

/-- An environment in which the session directory cannot be resolved. -/
def noDirEnv : Env :=
  { childEnv with Dir := fun _ => ("", some (Error.ext "cannot resolve home directory")) }

/-- An environment in which detachment fails. -/
def rebornFailEnv : Env :=
  { childEnv with Reborn := fun _ fs => ((none, some (Error.ext "resource temporarily unavailable")), fs) }

/-- An empty filesystem. -/
def emptyFS : FS := fun _ => none

/-- A filesystem with a stale socket and a directory at the companion socket path. -/
def staleFS : FS := fun p =>
  if p = "/home/u/.colima/dev/network/vmnet.ptp" then some ⟨false⟩
  else if p = "/home/u/.colima/dev/network/vmnet.ptp+" then some ⟨true⟩
  else none

/-- A filesystem in which both pid files exist. -/
def bothPidFS : FS := fun p =>
  if p = "/home/u/.colima/dev/network/vmnet.pid" then some ⟨false⟩
  else if p = "/home/u/.colima/dev/network/colima-daemon.pid" then some ⟨false⟩
  else none

/-- A filesystem in which only the pid file of the supervisor exists. -/
def daemonPidFS : FS := fun p =>
  if p = "/home/u/.colima/dev/network/colima-daemon.pid" then some ⟨false⟩ else none

/-- A fresh world over a filesystem. -/
def freshWorld (fs : FS) : World :=
  { profile := "default", fs := fs, trace := [], logs := [] }

/-! ## Lemmas on `filepath.Clean` and `filepath.Join` -/

/-- The loop stops when the input is used up. -/
theorem cleanLoop_nil (rooted : Bool) (fuel : Nat) (buf : List Char) (dd : Nat) :
    cleanLoop rooted fuel [] buf dd = buf := by
  cases fuel <;> rfl

/-- A list that contains a separator is not empty. -/
theorem isEmpty_append_sep (l r : List Char) : (l ++ '/' :: r).isEmpty = false := by
  cases l <;> rfl

/-- Looking one byte ahead across an appended separator. -/
theorem headD_append_sep (l r : List Char) : (l ++ '/' :: r).headD '/' = l.headD '/' := by
  cases l <;> rfl

/-- Copying an element stops at the first separator. -/
theorem takeWhile_append_sep (l r : List Char) :
    (l ++ '/' :: r).takeWhile (fun x => !IsPathSeparator x) =
      l.takeWhile (fun x => !IsPathSeparator x) := by
  induction l with
  | nil => simp [IsPathSeparator]
  | cons a l ih => simp only [List.cons_append, List.takeWhile_cons, ih]

/-- What is left after copying an element still holds the appended separator. -/
theorem dropWhile_append_sep (l r : List Char) :
    (l ++ '/' :: r).dropWhile (fun x => !IsPathSeparator x) =
      l.dropWhile (fun x => !IsPathSeparator x) ++ '/' :: r := by
  induction l with
  | nil => simp [IsPathSeparator]
  | cons a l ih =>
    simp only [List.cons_append, List.dropWhile_cons, ih]
    split <;> rfl

/-- Copying an element never grows the remaining input. -/
theorem dropWhile_length_le (l : List Char) :
    (l.dropWhile (fun x => !IsPathSeparator x)).length ≤ l.length := by
  induction l with
  | nil => simp
  | cons a l ih =>
    simp only [List.dropWhile_cons]
    split
    · simp only [List.length_cons]; omega
    · simp


/-- The lemma `takeWhile_append_sep` for a one-byte element. -/
theorem takeWhile_sep1 (a : Char) (r : List Char) :
    (a :: '/' :: r).takeWhile (fun x => !IsPathSeparator x) =
      [a].takeWhile (fun x => !IsPathSeparator x) :=
  takeWhile_append_sep [a] r

/-- The lemma `takeWhile_append_sep` with two bytes exposed. -/
theorem takeWhile_sep2 (a b : Char) (l r : List Char) :
    (a :: b :: (l ++ '/' :: r)).takeWhile (fun x => !IsPathSeparator x) =
      (a :: b :: l).takeWhile (fun x => !IsPathSeparator x) :=
  takeWhile_append_sep (a :: b :: l) r

/-- The lemma `dropWhile_append_sep` for a one-byte element. -/
theorem dropWhile_sep1 (a : Char) (r : List Char) :
    (a :: '/' :: r).dropWhile (fun x => !IsPathSeparator x) =
      [a].dropWhile (fun x => !IsPathSeparator x) ++ '/' :: r :=
  dropWhile_append_sep [a] r

/-- The lemma `dropWhile_append_sep` with two bytes exposed. -/
theorem dropWhile_sep2 (a b : Char) (l r : List Char) :
    (a :: b :: (l ++ '/' :: r)).dropWhile (fun x => !IsPathSeparator x) =
      (a :: b :: l).dropWhile (fun x => !IsPathSeparator x) ++ '/' :: r :=
  dropWhile_append_sep (a :: b :: l) r


/-- Copying an element that starts with a non-separator consumes at least that byte. -/
theorem dropWhile_length_lt (c : Char) (l : List Char) (h : ¬ IsPathSeparator c = true) :
    ((c :: l).dropWhile (fun x => !IsPathSeparator x)).length ≤ l.length := by
  have hc : (!IsPathSeparator c) = true := by simpa using h
  rw [List.dropWhile_cons, if_pos hc]
  exact dropWhile_length_le l

/-- The iteration bound of `cleanLoop` is never what stops the loop: with a bound of at
least the number of bytes still to read, the result does not depend on the bound. -/
theorem cleanLoop_fuel (rooted : Bool) :
    ∀ n (rest : List Char), rest.length ≤ n → ∀ (buf : List Char) (dd f1 f2 : Nat),
      rest.length ≤ f1 → rest.length ≤ f2 →
      cleanLoop rooted f1 rest buf dd = cleanLoop rooted f2 rest buf dd := by
  intro n
  induction n with
  | zero =>
    intro rest hr buf dd f1 f2 _ _
    have h0 : rest = [] := List.length_eq_zero.mp (by omega)
    subst h0
    rw [cleanLoop_nil, cleanLoop_nil]
  | succ n ih =>
    intro rest hr buf dd f1 f2 h1 h2
    rcases rest with _ | ⟨c, t⟩
    · rw [cleanLoop_nil, cleanLoop_nil]
    · simp only [List.length_cons] at hr h1 h2
      obtain ⟨g1, rfl⟩ : ∃ g, f1 = g + 1 := ⟨f1 - 1, by omega⟩
      obtain ⟨g2, rfl⟩ : ∃ g, f2 = g + 1 := ⟨f2 - 1, by omega⟩
      have htl : t.tail.length ≤ t.length := by simp
      simp only [cleanLoop]
      split_ifs
      all_goals first
        | exact ih t (by omega) _ _ g1 g2 (by omega) (by omega)
        | exact ih t.tail (by omega) _ _ g1 g2 (by omega) (by omega)
        | (have hl := dropWhile_length_lt c t (by assumption)
           exact ih _ (by omega) _ _ g1 g2 (by omega) (by omega))

/-- A plain file name (no separator, not starting with a dot) at the end of the input is
copied to the output as it is, after a separator where the buffer needs one. -/
theorem cleanLoop_plain (rooted : Bool) (g : Nat) (c : Char) (t buf : List Char) (dd : Nat)
    (hc : c ≠ '/') (hd : c ≠ '.') (ht : ∀ x ∈ t, x ≠ '/') :
    cleanLoop rooted (g + 1) (c :: t) buf dd =
      (if (rooted && buf.length != 1) || (!rooted && buf.length != 0) then buf ++ ['/'] else buf) ++
        c :: t := by
  have h1 : (c :: t).takeWhile (fun x => !IsPathSeparator x) = c :: t := by
    rw [List.takeWhile_eq_self_iff]
    intro x hx
    rcases List.mem_cons.mp hx with rfl | hx
    · simpa [IsPathSeparator] using hc
    · simpa [IsPathSeparator] using ht x hx
  have h2 : (c :: t).dropWhile (fun x => !IsPathSeparator x) = [] := by
    rw [List.dropWhile_eq_nil_iff]
    intro x hx
    rcases List.mem_cons.mp hx with rfl | hx
    · simpa [IsPathSeparator] using hc
    · simpa [IsPathSeparator] using ht x hx
  have h3 : IsPathSeparator c = false := by simpa [IsPathSeparator] using hc
  have h4 : (c == '.') = false := by simpa using hd
  rw [cleanLoop]
  simp only [h3, h4, Bool.false_and, h1, h2, cleanLoop_nil]
  simp

/-- The lemma `cleanLoop_plain` with the separator in front of the name still to be read. -/
theorem cleanLoop_last (rooted : Bool) (g : Nat) (c : Char) (t buf : List Char) (dd : Nat)
    (hc : c ≠ '/') (hd : c ≠ '.') (ht : ∀ x ∈ t, x ≠ '/') :
    cleanLoop rooted (g + 2) ('/' :: c :: t) buf dd =
      (if (rooted && buf.length != 1) || (!rooted && buf.length != 0) then buf ++ ['/'] else buf) ++
        c :: t := by
  have h5 : IsPathSeparator '/' = true := by decide
  rw [cleanLoop, if_pos h5]
  exact cleanLoop_plain rooted g c t buf dd hc hd ht

/-- What the loop does before it reaches the last separator does not depend on the plain
file name that follows it: two runs that differ only in that name produce the same output
in front of the name. -/
theorem cleanLoop_two (rooted : Bool) (c1 : Char) (t1 : List Char) (c2 : Char) (t2 : List Char)
    (hc1 : c1 ≠ '/') (hd1 : c1 ≠ '.') (ht1 : ∀ x ∈ t1, x ≠ '/')
    (hc2 : c2 ≠ '/') (hd2 : c2 ≠ '.') (ht2 : ∀ x ∈ t2, x ≠ '/') :
    ∀ n (X : List Char), X.length ≤ n → ∀ (buf : List Char) (dd f1 f2 : Nat),
      X.length + 2 + t1.length ≤ f1 → X.length + 2 + t2.length ≤ f2 →
      ∃ P, cleanLoop rooted f1 (X ++ '/' :: c1 :: t1) buf dd = P ++ c1 :: t1 ∧
        cleanLoop rooted f2 (X ++ '/' :: c2 :: t2) buf dd = P ++ c2 :: t2 := by
  have base : ∀ (buf : List Char) (dd f1 f2 : Nat), 2 ≤ f1 → 2 ≤ f2 →
      ∃ P, cleanLoop rooted f1 ('/' :: c1 :: t1) buf dd = P ++ c1 :: t1 ∧
        cleanLoop rooted f2 ('/' :: c2 :: t2) buf dd = P ++ c2 :: t2 := by
    intro buf dd f1 f2 h1 h2
    obtain ⟨g1, rfl⟩ : ∃ g, f1 = g + 2 := ⟨f1 - 2, by omega⟩
    obtain ⟨g2, rfl⟩ : ∃ g, f2 = g + 2 := ⟨f2 - 2, by omega⟩
    exact ⟨_, cleanLoop_last rooted g1 c1 t1 buf dd hc1 hd1 ht1,
      cleanLoop_last rooted g2 c2 t2 buf dd hc2 hd2 ht2⟩
  intro n
  induction n with
  | zero =>
    intro X hX buf dd f1 f2 h1 h2
    have hX0 : X = [] := List.length_eq_zero.mp (by omega)
    subst hX0
    exact base buf dd f1 f2 (by simpa using (by omega : 2 ≤ f1)) (by omega)
  | succ n ih =>
    intro X hX buf dd f1 f2 h1 h2
    obtain ⟨g1, rfl⟩ : ∃ g, f1 = g + 1 := ⟨f1 - 1, by omega⟩
    obtain ⟨g2, rfl⟩ : ∃ g, f2 = g + 1 := ⟨f2 - 1, by omega⟩
    have hsl : ('/' == '.') = false := by decide
    have hss : IsPathSeparator '/' = true := by decide
    rcases X with _ | ⟨c, _ | ⟨d, t⟩⟩
    · exact base buf dd _ _ (by omega) (by omega)
    · simp only [List.length_cons, List.length_nil] at hX h1 h2
      simp only [List.cons_append, List.nil_append]
      simp only [cleanLoop, List.isEmpty_cons, List.headD_cons, List.tail_cons, takeWhile_sep1,
        dropWhile_sep1, hsl, hss, Bool.and_false, Bool.false_and, Bool.or_true, Bool.and_true,
        Bool.false_eq_true, if_false]
      split_ifs
      all_goals first
        | exact ih [] (by simp) _ _ g1 g2 (by simp; omega) (by simp; omega)
        | (have hl := dropWhile_length_lt c [] (by assumption)
           simp only [List.length_nil] at hl
           exact ih _ (by omega) _ _ g1 g2 (by omega) (by omega))
    · simp only [List.length_cons] at hX h1 h2
      simp only [List.cons_append, List.nil_append]
      simp only [cleanLoop, List.isEmpty_cons, List.headD_cons, List.tail_cons, isEmpty_append_sep,
        headD_append_sep, takeWhile_sep2, dropWhile_sep2, Bool.false_or]
      split_ifs
      all_goals first
        | exact ih (d :: t) (by simp; omega) _ _ g1 g2 (by simp; omega) (by simp; omega)
        | exact ih t (by omega) _ _ g1 g2 (by omega) (by omega)
        | (have hl := dropWhile_length_lt c (d :: t) (by assumption)
           simp only [List.length_cons] at hl
           exact ih _ (by omega) _ _ g1 g2 (by omega) (by omega))

/-- Joining a directory with two plain file names gives the two names behind one and the
same cleaned directory part. -/
theorem Join_plain_pair (dir : String) (c1 : Char) (t1 : List Char) (c2 : Char) (t2 : List Char)
    (hc1 : c1 ≠ '/') (hd1 : c1 ≠ '.') (ht1 : ∀ x ∈ t1, x ≠ '/')
    (hc2 : c2 ≠ '/') (hd2 : c2 ≠ '.') (ht2 : ∀ x ∈ t2, x ≠ '/') :
    ∃ P : List Char, Join [dir, ⟨c1 :: t1⟩] = ⟨P ++ c1 :: t1⟩ ∧
      Join [dir, ⟨c2 :: t2⟩] = ⟨P ++ c2 :: t2⟩ := by
  have hne : ∀ (c : Char) (t : List Char), (⟨c :: t⟩ : String) ≠ "" := by
    intro c t h
    have := congrArg String.data h
    simp at this
  have hout : ∀ (P : List Char) (c : Char) (t : List Char), (P ++ c :: t).isEmpty = false := by
    intro P c t
    cases P <;> rfl
  have hdata : ∀ n : String, ("/".intercalate [dir, n]).data = dir.data ++ '/' :: n.data := by
    intro n
    simp [String.intercalate, String.intercalate.go]
  by_cases hdir : dir = ""
  · subst hdir
    have hs1 : IsPathSeparator c1 = false := by simpa [IsPathSeparator] using hc1
    have hs2 : IsPathSeparator c2 = false := by simpa [IsPathSeparator] using hc2
    refine ⟨[], ?_, ?_⟩
    · simp only [Join, ne_eq, not_true_eq_false, if_false, hne, not_false_eq_true, if_true]
      simp [String.intercalate, String.intercalate.go, Clean, hs1,
        cleanLoop_plain false t1.length c1 t1 [] 0 hc1 hd1 ht1]
    · simp only [Join, ne_eq, not_true_eq_false, if_false, hne, not_false_eq_true, if_true]
      simp [String.intercalate, String.intercalate.go, Clean, hs2,
        cleanLoop_plain false t2.length c2 t2 [] 0 hc2 hd2 ht2]
  · obtain ⟨a, X, hX⟩ : ∃ a X, dir.data = a :: X := by
      rcases dir with ⟨_ | ⟨a, X⟩⟩
      · exact absurd rfl hdir
      · exact ⟨a, X, rfl⟩
    cases hr : IsPathSeparator a with
    | true =>
      obtain ⟨P, h1, h2⟩ := cleanLoop_two true c1 t1 c2 t2 hc1 hd1 ht1 hc2 hd2 ht2 X.length X
        (le_refl _) ['/'] 1 (X.length + (t1.length + 1 + 1) + 1)
        (X.length + (t2.length + 1 + 1) + 1) (by omega) (by omega)
      refine ⟨P, ?_, ?_⟩
      · simp only [Join, ne_eq, hdir, not_false_eq_true, if_true]
        simp [Clean, hdata, hX, hr, h1, hout]
      · simp only [Join, ne_eq, hdir, not_false_eq_true, if_true]
        simp [Clean, hdata, hX, hr, h2, hout]
    | false =>
      obtain ⟨P, h1, h2⟩ := cleanLoop_two false c1 t1 c2 t2 hc1 hd1 ht1 hc2 hd2 ht2 (X.length + 1)
        (a :: X) (le_refl _) [] 0 (X.length + (t1.length + 1 + 1) + 1)
        (X.length + (t2.length + 1 + 1) + 1) (by simp; omega) (by simp; omega)
      refine ⟨P, ?_, ?_⟩
      · simp only [Join, ne_eq, hdir, not_false_eq_true, if_true]
        simp only [List.cons_append] at h1
        simp [Clean, hdata, hX, hr, h1, hout]
      · simp only [Join, ne_eq, hdir, not_false_eq_true, if_true]
        simp only [List.cons_append] at h2
        simp [Clean, hdata, hX, hr, h2, hout]

/-! ## The session paths: `info` -/

/-- The function `info` hands back the world it received. -/
theorem info_world (env : Env) (w : World) : (info env w).2 = w := by
  cases h : (env.Dir w.profile).2 <;> simp [info, h]

/-- The error of `info` is the error of `network.Dir()`. -/
theorem info_err (env : Env) (w : World) : (info env w).1.2 = (env.Dir w.profile).2 := by
  cases h : (env.Dir w.profile).2 <;> simp [info, h]

/-- C5: whenever directory resolution succeeds with `dir`, `info` returns no error and
exactly the three joined paths, leaves the world (hence the filesystem) as it was, and two
calls under the same profile return the same record. -/
theorem info_paths (env : Env) (w : World) (dir : String)
    (hdir : env.Dir w.profile = (dir, none)) :
    (info env w).1 =
        (⟨Join [dir, "colima-daemon.pid"], Join [dir, "vmnet.stderr"], Join [dir, "vmnet.pid"]⟩,
          none) ∧
      (info env w).2 = w ∧
      ∀ w2 : World, w2.profile = w.profile → (info env w2).1 = (info env w).1 ∧ (info env w2).2 = w2 := by
  refine ⟨?_, ?_, ?_⟩
  · simp [info, hdir]
  · simp [info, hdir]
  · intro w2 h2
    simp [info, h2, hdir]

/-- C5, on the sample directory: the three paths. -/
theorem info_paths_witness :
    (info childEnv (SetProfile "dev" (freshWorld emptyFS))).1 =
        (⟨"/home/u/.colima/dev/network/colima-daemon.pid",
          "/home/u/.colima/dev/network/vmnet.stderr",
          "/home/u/.colima/dev/network/vmnet.pid"⟩, none) :=
  (info_paths childEnv (SetProfile "dev" (freshWorld emptyFS)) sampleDir rfl).1

/-! ## Socket reclaiming: `forceDeleteFileIfExists` -/

/-- C6: `daemonize` reports child exactly when the directory resolves and `Reborn` returns
neither an error nor a handle; a handle gives `(false, nil)`; an error of `Reborn` gives
`false` with an error wrapping it; child is never reported together with an error. -/
theorem daemonize_child_iff (env : Env) (w : World) :
    let ctx := daemonContext (info env w).1.1
    let rb := (env.Reborn ctx w.fs).1
    ((daemonize env w).1.1 = true ↔ (info env w).1.2 = none ∧ rb = (none, none)) ∧
      ((info env w).1.2 = none → rb.2 = none → rb.1 ≠ none →
        (daemonize env w).1 = (false, none)) ∧
      (∀ e, (info env w).1.2 = none → rb.2 = some e →
        (daemonize env w).1 =
          (false, some (Error.wrapf "error running colima-vmnet as daemon: %w" e))) ∧
      ¬ ((daemonize env w).1.1 = true ∧ (daemonize env w).1.2 ≠ none) := by
  have hw : (info env w).2 = w := info_world env w
  intro ctx rb
  cases hi : (info env w).1.2 with
  | some e => simp [daemonize, hi]
  | none =>
    cases hr2 : (env.Reborn (daemonContext (info env w).1.1) w.fs).1.2 with
    | some e => simp [daemonize, hi, hw, hr2, rb, ctx, Prod.ext_iff]
    | none =>
      cases hr1 : (env.Reborn (daemonContext (info env w).1.1) w.fs).1.1 with
      | some d => simp [daemonize, hi, hw, hr2, hr1, rb, ctx, Prod.ext_iff]
      | none => simp [daemonize, hi, hw, hr2, hr1, rb, ctx, Prod.ext_iff]

/-- C6, in the invoking process: a handle from `Reborn` gives `(false, nil)`. -/
theorem daemonize_child_iff_witness :
    (daemonize parentEnv (freshWorld emptyFS)).1 = (false, none) :=
  (daemonize_child_iff parentEnv (freshWorld emptyFS)).2.1 rfl rfl (by decide)

/-- When `daemonize` does not report child, the only effect it may have added to the trace
is the call of `Reborn`. -/
theorem daemonize_trace_not_child (env : Env) (w : World)
    (h : (daemonize env w).1.1 = false) :
    (daemonize env w).2.trace = w.trace ∨
      (daemonize env w).2.trace =
        w.trace ++ [Effect.reborn (daemonContext (info env w).1.1)] := by
  have hw : (info env w).2 = w := info_world env w
  cases hi : (info env w).1.2 with
  | some e => simp [daemonize, hi, hw]
  | none =>
    cases hr2 : (env.Reborn (daemonContext (info env w).1.1) w.fs).1.2 with
    | some e => simp [daemonize, hi, hw, hr2]
    | none =>
      cases hr1 : (env.Reborn (daemonContext (info env w).1.1) w.fs).1.1 with
      | some d => simp [daemonize, hi, hw, hr2, hr1]
      | none => simp [daemonize, hi, hw, hr2, hr1] at h

/-- An error of `daemonize` never comes with child reported. -/
theorem daemonize_err_not_child (env : Env) (w : World) (e : Error)
    (h : (daemonize env w).1.2 = some e) : (daemonize env w).1.1 = false := by
  have hw : (info env w).2 = w := info_world env w
  cases hi : (info env w).1.2 with
  | some e => simp [daemonize, hi]
  | none =>
    cases hr2 : (env.Reborn (daemonContext (info env w).1.1) w.fs).1.2 with
    | some e => simp [daemonize, hi, hw, hr2]
    | none =>
      cases hr1 : (env.Reborn (daemonContext (info env w).1.1) w.fs).1.1 with
      | some d => simp [daemonize, hi, hw, hr2, hr1]
      | none => simp [daemonize, hi, hw, hr2, hr1] at h

/-- When `daemonize` reports child, it has called `Reborn` and then, on its way out,
`Release`: both effects are in the trace before the caller continues. -/
theorem daemonize_child_trace (env : Env) (w : World)
    (h : (daemonize env w).1.1 = true) :
    (daemonize env w).2.trace =
      w.trace ++ [Effect.reborn (daemonContext (info env w).1.1),
        Effect.release (daemonContext (info env w).1.1)] := by
  have hw : (info env w).2 = w := info_world env w
  cases hi : (info env w).1.2 with
  | some e => simp [daemonize, hi] at h
  | none =>
    cases hr2 : (env.Reborn (daemonContext (info env w).1.1) w.fs).1.2 with
    | some e => simp [daemonize, hi, hw, hr2] at h
    | none =>
      cases hr1 : (env.Reborn (daemonContext (info env w).1.1) w.fs).1.1 with
      | some d => simp [daemonize, hi, hw, hr2, hr1] at h
      | none => simp [daemonize, hi, hw, hr2, hr1, logrus]

/-- The function `daemonize` does not change the profile. -/
theorem daemonize_profile (env : Env) (w : World) :
    (daemonize env w).2.profile = w.profile := by
  have hw : (info env w).2 = w := info_world env w
  cases hi : (info env w).1.2 with
  | some e => simp [daemonize, hi, hw]
  | none =>
    cases hr2 : (env.Reborn (daemonContext (info env w).1.1) w.fs).1.2 with
    | some e => simp [daemonize, hi, hw, hr2]
    | none =>
      cases hr1 : (env.Reborn (daemonContext (info env w).1.1) w.fs).1.1 with
      | some d => simp [daemonize, hi, hw, hr2, hr1]
      | none => simp [daemonize, hi, hw, hr2, hr1, logrus]

/-! ## The start command -/

/-- C7: when directory resolution fails with `e`, stop and start both return `e` and leave
the world as it was apart from the profile that was just set: the trace gains no effect (no
kill, no `Reborn`, no removal, no launch) and the filesystem is untouched. -/
theorem resolution_failure_aborts (env : Env) (arg dir : String) (e : Error) (w : World)
    (hdir : env.Dir arg = (dir, some e)) :
    stopCmd.RunE env arg w = (some e, SetProfile arg w) ∧
      startCmd.RunE env arg w = (some e, SetProfile arg w) ∧
      (stopCmd.RunE env arg w).2.trace = w.trace ∧
      (startCmd.RunE env arg w).2.trace = w.trace ∧
      (stopCmd.RunE env arg w).2.fs = w.fs ∧
      (startCmd.RunE env arg w).2.fs = w.fs ∧
      daemonize env (SetProfile arg w) = ((false, some e), SetProfile arg w) := by
  have h1 : stopCmd.RunE env arg w = (some e, SetProfile arg w) := by
    simp [stopCmd.RunE, info, SetProfile, hdir]
  have h2 : startCmd.RunE env arg w = (some e, SetProfile arg w) := by
    simp [startCmd.RunE, daemonize, info, SetProfile, hdir]
  have h3 : daemonize env (SetProfile arg w) = ((false, some e), SetProfile arg w) := by
    simp [daemonize, info, SetProfile, hdir]
  rw [h1, h2, h3]
  simp [SetProfile]

/-- C7, on a sample environment without a session directory. -/
theorem resolution_failure_aborts_witness :
    (startCmd.RunE noDirEnv "dev" (freshWorld staleFS)).2.trace = [] :=
  (resolution_failure_aborts noDirEnv "dev" "" (Error.ext "cannot resolve home directory")
    (freshWorld staleFS) rfl).2.2.2.1

/-- C8: when `daemonize` returns `(false, nil)` start returns nil at once, and when
`daemonize` returns an error start returns that error; in both cases the world is the one
`daemonize` left, whose trace is the initial trace followed by at most the `Reborn` call,
so nothing is removed and nothing is launched. -/
theorem start_not_child (env : Env) (arg : String) (w : World) :
    let d := daemonize env (SetProfile arg w)
    let ctx := daemonContext (info env (SetProfile arg w)).1.1
    (d.1 = (false, none) → startCmd.RunE env arg w = (none, d.2)) ∧
      (∀ e, d.1.2 = some e → startCmd.RunE env arg w = (some e, d.2)) ∧
      ((d.1 = (false, none) ∨ d.1.2 ≠ none) →
        (startCmd.RunE env arg w).2.trace = w.trace ∨
          (startCmd.RunE env arg w).2.trace = w.trace ++ [Effect.reborn ctx]) := by
  intro d ctx
  have hA : d.1 = (false, none) → startCmd.RunE env arg w = (none, d.2) := by
    intro h
    have h1 : (daemonize env (SetProfile arg w)).1.1 = false := by
      have := congrArg Prod.fst h
      simpa [d] using this
    have h2 : (daemonize env (SetProfile arg w)).1.2 = none := by
      have := congrArg Prod.snd h
      simpa [d] using this
    simp [startCmd.RunE, h1, h2, d]
  have hB : ∀ e, d.1.2 = some e → startCmd.RunE env arg w = (some e, d.2) := by
    intro e h
    have h2 : (daemonize env (SetProfile arg w)).1.2 = some e := h
    simp [startCmd.RunE, h2, d]
  refine ⟨hA, hB, ?_⟩
  intro h
  have hc : d.1.1 = false := by
    rcases h with h | h
    · rw [h]
    · cases he : d.1.2 with
      | none => exact absurd he h
      | some e => exact daemonize_err_not_child env (SetProfile arg w) e he
  have ht := daemonize_trace_not_child env (SetProfile arg w) hc
  have hs : (startCmd.RunE env arg w).2 = d.2 := by
    rcases h with h | h
    · rw [hA h]
    · cases he : d.1.2 with
      | none => exact absurd he h
      | some e => rw [hB e he]
  rw [hs]
  simpa [SetProfile, d, ctx] using ht

/-- C8, in the invoking process: start returns nil and only `Reborn` was called. -/
theorem start_not_child_witness :
    startCmd.RunE parentEnv "dev" (freshWorld staleFS) =
      (none, (daemonize parentEnv (SetProfile "dev" (freshWorld staleFS))).2) :=
  (start_not_child parentEnv "dev" (freshWorld staleFS)).1 rfl

/-- In the detached child start is: resolve the PTP path (a failure is only logged), delete
the two sockets, run the supervised binary. -/
theorem start_child_eq (env : Env) (arg : String) (w : World)
    (hchild : (daemonize env (SetProfile arg w)).1 = (true, none)) :
    startCmd.RunE env arg w =
      CommandRun env env.VmnetBinary (vmnetArgs env (env.PTPFile arg).1)
        (forceDeleteFileIfExists env ((env.PTPFile arg).1 ++ "+")
          (forceDeleteFileIfExists env (env.PTPFile arg).1
            (match (env.PTPFile arg).2 with
              | some err =>
                logrus Level.warn "ptp file error: %w" (some err)
                  (daemonize env (SetProfile arg w)).2
              | none => (daemonize env (SetProfile arg w)).2)).2).2 := by
  have h1 : (daemonize env (SetProfile arg w)).1.1 = true := by
    have := congrArg Prod.fst hchild
    simpa using this
  have h2 : (daemonize env (SetProfile arg w)).1.2 = none := by
    have := congrArg Prod.snd hchild
    simpa using this
  have hp : (daemonize env (SetProfile arg w)).2.profile = arg := by
    rw [daemonize_profile]
    rfl
  simp only [startCmd.RunE, h1, h2, hp]
  rfl

/-- C9: in the detached child, with the PTP path resolved to `ptp`, start deletes `ptp`
(best effort), then `ptp` followed by a plus sign (best effort), then launches the
supervised binary exactly once with the fixed argument list, and returns exactly what that
run returns; the outcome of the two removals is not looked at. -/
theorem start_child_launch (env : Env) (arg : String) (w : World)
    (hchild : (daemonize env (SetProfile arg w)).1 = (true, none)) :
    let d := (daemonize env (SetProfile arg w)).2
    let ptp := (env.PTPFile arg).1
    let wa := (forceDeleteFileIfExists env ptp d).2
    let wb := (forceDeleteFileIfExists env (ptp ++ "+") wa).2
    let args := ["--vmnet-mode", "shared", "--vmnet-gateway", env.VmnetGateway,
      "--vmnet-dhcp-end", env.VmnetDHCPEnd,
      "--pidfile", TrimSuffix ptp ".ptp" ++ ".pid", ptp ++ "[]"]
    (startCmd.RunE env arg w).1 = (env.Run env.VmnetBinary args wb.fs).1 ∧
      (startCmd.RunE env arg w).2.fs = (env.Run env.VmnetBinary args wb.fs).2 ∧
      (startCmd.RunE env arg w).2.trace =
        d.trace ++
          (if (d.fs ptp).any (fun st => !st.IsDir) then [Effect.remove ptp] else []) ++
          (if (wa.fs (ptp ++ "+")).any (fun st => !st.IsDir) then [Effect.remove (ptp ++ "+")]
            else []) ++
          [Effect.run env.VmnetBinary args] := by
  intro d ptp wa wb args
  -- the deletions only look at the filesystem and only extend the trace
  have key : ∀ (p : String) (u v : World), u.fs = v.fs → u.trace = v.trace →
      (forceDeleteFileIfExists env p u).2.fs = (forceDeleteFileIfExists env p v).2.fs ∧
        (forceDeleteFileIfExists env p u).2.trace = (forceDeleteFileIfExists env p v).2.trace ∧
        (forceDeleteFileIfExists env p v).2.trace =
          v.trace ++ (if (v.fs p).any (fun st => !st.IsDir) then [Effect.remove p] else []) := by
    intro p u v hf ht
    cases hs : v.fs p with
    | none => simp [forceDeleteFileIfExists, osStat, hf, ht, hs]
    | some st =>
      cases hd : st.IsDir <;> cases hr : (env.Remove p v.fs).1 <;>
        simp [forceDeleteFileIfExists, osStat, osRemove, hf, ht, hs, hd, hr]
  set w1 : World :=
    match (env.PTPFile arg).2 with
    | some err => logrus Level.warn "ptp file error: %w" (some err) d
    | none => d with hw1
  have hw1f : w1.fs = d.fs := by
    rw [hw1]
    cases (env.PTPFile arg).2 <;> simp [logrus]
  have hw1t : w1.trace = d.trace := by
    rw [hw1]
    cases (env.PTPFile arg).2 <;> simp [logrus]
  have hs : startCmd.RunE env arg w =
      CommandRun env env.VmnetBinary (vmnetArgs env ptp)
        (forceDeleteFileIfExists env (ptp ++ "+") (forceDeleteFileIfExists env ptp w1).2).2 :=
    start_child_eq env arg w hchild
  obtain ⟨ka, kb, kc⟩ := key ptp w1 d hw1f hw1t
  obtain ⟨la, lb, lc⟩ := key (ptp ++ "+") (forceDeleteFileIfExists env ptp w1).2 wa ka kb
  rw [hs]
  refine ⟨?_, ?_, ?_⟩
  · simp only [CommandRun, vmnetArgs, la]
  · simp only [CommandRun, vmnetArgs, la]
  · simp only [CommandRun, vmnetArgs, lb, lc]
    rw [show wa.trace = _ from kc]

/-- C9, on a sample run with a stale socket: the removal, then the launch, and the result
of start is the exit error of the binary. -/
theorem start_child_launch_witness :
    (startCmd.RunE childEnv "dev" (freshWorld staleFS)).1 = some (Error.ext "exit status 1") :=
  (start_child_launch childEnv "dev" (freshWorld staleFS) rfl).1

/-- C3 (evaluated on the code): in the detached child the pid file is released when
`daemonize` returns, before the supervised binary is launched; the trace of start is
`Reborn`, `Release`, launch, and the pid file written by `Reborn` is already gone. -/
theorem start_child_release_precedes_run :
    (startCmd.RunE childEnv "dev" (freshWorld emptyFS)).2.trace =
        [Effect.reborn ⟨"/home/u/.colima/dev/network/colima-daemon.pid", 0o644,
            "/home/u/.colima/dev/network/vmnet.stderr", 0o644⟩,
          Effect.release ⟨"/home/u/.colima/dev/network/colima-daemon.pid", 0o644,
            "/home/u/.colima/dev/network/vmnet.stderr", 0o644⟩,
          Effect.run "/opt/colima/bin/vde_vmnet"
            ["--vmnet-mode", "shared", "--vmnet-gateway", "192.168.106.1",
              "--vmnet-dhcp-end", "192.168.106.254",
              "--pidfile", "/home/u/.colima/dev/network/vmnet.pid",
              "/home/u/.colima/dev/network/vmnet.ptp[]"]] ∧
      (daemonize childEnv (SetProfile "dev" (freshWorld emptyFS))).1 = (true, none) ∧
      (daemonize childEnv (SetProfile "dev" (freshWorld emptyFS))).2.fs
        "/home/u/.colima/dev/network/colima-daemon.pid" = none := by
  refine ⟨by decide, by decide, by decide⟩

/-! ## The stop command -/

/-- C1: when the directory resolves to `dir`, stop returns nil and issues pkill for exactly
those of the pid files `dir/vmnet.pid`, `dir/colima-daemon.pid` whose stat succeeds when the
loop reaches them, in that order, and nothing else.  With neither file present nothing
happens; with only the second present, exactly one pkill is issued, for that file. -/
theorem stop_signals_present_pidfiles (env : Env) (arg dir : String) (w : World)
    (hdir : env.Dir arg = (dir, none)) :
    let vp := Join [dir, "vmnet.pid"]
    let dp := Join [dir, "colima-daemon.pid"]
    let fs1 := if (w.fs vp).isSome then (env.Run "pkill" ["-F", vp] w.fs).2 else w.fs
    (stopCmd.RunE env arg w).1 = none ∧
      (stopCmd.RunE env arg w).2.trace =
        w.trace ++ (if (w.fs vp).isSome then [Effect.run "pkill" ["-F", vp]] else []) ++
          (if (fs1 dp).isSome then [Effect.run "pkill" ["-F", dp]] else []) ∧
      (w.fs vp = none → w.fs dp = none →
        stopCmd.RunE env arg w = (none, SetProfile arg w)) ∧
      (w.fs vp = none → (w.fs dp).isSome →
        (stopCmd.RunE env arg w).2.trace = w.trace ++ [Effect.run "pkill" ["-F", dp]]) := by
  intro vp dp fs1
  have hgen : (stopCmd.RunE env arg w).1 = none ∧
      (stopCmd.RunE env arg w).2.trace =
        w.trace ++ (if (w.fs vp).isSome then [Effect.run "pkill" ["-F", vp]] else []) ++
          (if (fs1 dp).isSome then [Effect.run "pkill" ["-F", dp]] else []) := by
    cases hv : w.fs vp with
    | none =>
      have hv1 : w.fs (Join [dir, "vmnet.pid"]) = none := hv
      have hf : fs1 = w.fs := by simp [fs1, hv]
      rw [hf]
      cases hd : w.fs dp with
      | none =>
        have hd1 : w.fs (Join [dir, "colima-daemon.pid"]) = none := hd
        simp [stopCmd.RunE, info, SetProfile, hdir, stopLoop, osStat, hv1, hd1]
      | some st =>
        have hd1 : w.fs (Join [dir, "colima-daemon.pid"]) = some st := hd
        cases hr : (env.Run "pkill" ["-F", Join [dir, "colima-daemon.pid"]] w.fs).1 <;>
          simp [stopCmd.RunE, info, SetProfile, hdir, stopLoop, osStat, hv1, hd1, CommandRun,
            hr, logrus, dp]
    | some sv =>
      have hv1 : w.fs (Join [dir, "vmnet.pid"]) = some sv := hv
      have hf : fs1 = (env.Run "pkill" ["-F", vp] w.fs).2 := by simp [fs1, hv]
      rw [hf]
      cases hr : (env.Run "pkill" ["-F", Join [dir, "vmnet.pid"]] w.fs).1 <;>
        cases hd : (env.Run "pkill" ["-F", Join [dir, "vmnet.pid"]] w.fs).2
            (Join [dir, "colima-daemon.pid"]) <;>
        cases hr2 : (env.Run "pkill" ["-F", Join [dir, "colima-daemon.pid"]]
            (env.Run "pkill" ["-F", Join [dir, "vmnet.pid"]] w.fs).2).1 <;>
        simp [stopCmd.RunE, info, SetProfile, hdir, stopLoop, osStat, hv1, hd, CommandRun,
          hr, hr2, logrus, dp, vp]
  refine ⟨hgen.1, hgen.2, ?_, ?_⟩
  · intro hv hd
    have hv1 : w.fs (Join [dir, "vmnet.pid"]) = none := hv
    have hd1 : w.fs (Join [dir, "colima-daemon.pid"]) = none := hd
    simp [stopCmd.RunE, info, SetProfile, hdir, stopLoop, osStat, hv1, hd1]
  · intro hv hd
    have hf : fs1 = w.fs := by simp [fs1, hv]
    rw [hgen.2, hf]
    simp [hv, hd]

/-- C1, with only the pid file of the supervisor present: one pkill, for that file. -/
theorem stop_signals_present_pidfiles_witness :
    (stopCmd.RunE childEnv "dev" (freshWorld daemonPidFS)).2.trace =
      [] ++ [Effect.run "pkill" ["-F", Join [sampleDir, "colima-daemon.pid"]]] :=
  (stop_signals_present_pidfiles childEnv "dev" sampleDir (freshWorld daemonPidFS) rfl).2.2.2
    (by decide) (by decide)

/-- C2: whatever the kill commands return, stop returns nil when the directory resolves;
when stat succeeds for both pid files both kills are issued, in order, and a failing first
kill is only logged as an error before the second kill is attempted. -/
theorem stop_best_effort (env : Env) (arg dir : String) (w : World)
    (hdir : env.Dir arg = (dir, none)) :
    let vp := Join [dir, "vmnet.pid"]
    let dp := Join [dir, "colima-daemon.pid"]
    let r1 := env.Run "pkill" ["-F", vp] w.fs
    (stopCmd.RunE env arg w).1 = none ∧
      ((w.fs vp).isSome → (r1.2 dp).isSome →
        (stopCmd.RunE env arg w).2.trace =
          w.trace ++ [Effect.run "pkill" ["-F", vp], Effect.run "pkill" ["-F", dp]]) ∧
      (∀ e, (w.fs vp).isSome → (r1.2 dp).isSome → r1.1 = some e →
        (stopCmd.RunE env arg w).2.trace =
            w.trace ++ [Effect.run "pkill" ["-F", vp], Effect.run "pkill" ["-F", dp]] ∧
          (⟨Level.error, "", some (Error.wrapf "error killing process: %w" e)⟩ : LogEntry) ∈
            (stopCmd.RunE env arg w).2.logs) := by
  intro vp dp r1
  have hret : (stopCmd.RunE env arg w).1 = none := by
    simp [stopCmd.RunE, info, SetProfile, hdir]
  have hboth : (w.fs vp).isSome → (r1.2 dp).isSome →
      (stopCmd.RunE env arg w).2.trace =
        w.trace ++ [Effect.run "pkill" ["-F", vp], Effect.run "pkill" ["-F", dp]] ∧
      ∀ e, r1.1 = some e →
        (⟨Level.error, "", some (Error.wrapf "error killing process: %w" e)⟩ : LogEntry) ∈
          (stopCmd.RunE env arg w).2.logs := by
    intro hv hd
    obtain ⟨sv, hsv⟩ := Option.isSome_iff_exists.mp hv
    obtain ⟨sd, hsd⟩ := Option.isSome_iff_exists.mp hd
    have hv1 : w.fs (Join [dir, "vmnet.pid"]) = some sv := hsv
    have hd1 : (env.Run "pkill" ["-F", Join [dir, "vmnet.pid"]] w.fs).2
        (Join [dir, "colima-daemon.pid"]) = some sd := hsd
    cases hr : (env.Run "pkill" ["-F", Join [dir, "vmnet.pid"]] w.fs).1 <;>
      cases hr2 : (env.Run "pkill" ["-F", Join [dir, "colima-daemon.pid"]]
          (env.Run "pkill" ["-F", Join [dir, "vmnet.pid"]] w.fs).2).1 <;>
      simp [stopCmd.RunE, info, SetProfile, hdir, stopLoop, osStat, hv1, hd1, CommandRun,
        hr, hr2, logrus, dp, vp, r1]
  refine ⟨hret, fun hv hd => (hboth hv hd).1, fun e hv hd he => ⟨(hboth hv hd).1, ?_⟩⟩
  exact (hboth hv hd).2 e he

/-- C2, with both pid files present and a failing pkill: both kills are issued. -/
theorem stop_best_effort_witness :
    (stopCmd.RunE childEnv "dev" (freshWorld bothPidFS)).2.trace =
      [] ++ [Effect.run "pkill" ["-F", Join [sampleDir, "vmnet.pid"]],
        Effect.run "pkill" ["-F", Join [sampleDir, "colima-daemon.pid"]]] :=
  ((stop_best_effort childEnv "dev" sampleDir (freshWorld bothPidFS) rfl).2.2
    (Error.ext "exit status 1") (by decide) (by decide) rfl).1

/-! ## Start and stop agree on the pid file of the supervised binary -/

/-- The pid path derived from the PTP path `dir/vmnet.ptp` is `dir/vmnet.pid`. -/
theorem trimSuffix_join_ptp (dir : String) :
    TrimSuffix (Join [dir, "vmnet.ptp"]) ".ptp" ++ ".pid" = Join [dir, "vmnet.pid"] := by
  obtain ⟨P, h1, h2⟩ := Join_plain_pair dir 'v' "mnet.ptp".data 'v' "mnet.pid".data
    (by decide) (by decide) (by decide) (by decide) (by decide) (by decide)
  have e1 : Join [dir, "vmnet.ptp"] = ⟨P ++ "vmnet.ptp".data⟩ := h1
  have e2 : Join [dir, "vmnet.pid"] = ⟨P ++ "vmnet.pid".data⟩ := h2
  have hsuf : (".ptp".data).isSuffixOf (P ++ "vmnet.ptp".data) = true := by
    rw [List.isSuffixOf_iff_suffix]
    exact ⟨P ++ "vmnet".data, by simp⟩
  have htake : (P ++ "vmnet.ptp".data).take
      ((P ++ "vmnet.ptp".data).length - (".ptp".data).length) = P ++ "vmnet".data := by
    have : P ++ "vmnet.ptp".data = (P ++ "vmnet".data) ++ ".ptp".data := by simp
    rw [this]
    apply List.take_left'
    simp
  rw [e1, e2]
  simp only [TrimSuffix, hsuf, if_true, htake]
  apply String.ext
  simp

/-- C10: for every directory `dir`, when the PTP path resolves to `dir/vmnet.ptp` the
pidfile argument that start hands to the supervised binary is the `VmnetPidFile` of `info`,
`dir/vmnet.pid`, which is the first file stop signals; and for a PTP path that does not end
in `.ptp` the derived pid path is the whole PTP path followed by `.pid`. -/
theorem start_stop_agree_on_pidfile (env : Env) (arg dir : String) (w : World)
    (hdir : env.Dir arg = (dir, none))
    (hptp : (env.PTPFile arg).1 = Join [dir, "vmnet.ptp"])
    (hchild : (daemonize env (SetProfile arg w)).1 = (true, none)) :
    (info env (SetProfile arg w)).1.1.VmnetPidFile = Join [dir, "vmnet.pid"] ∧
      TrimSuffix (Join [dir, "vmnet.ptp"]) ".ptp" ++ ".pid" =
        (info env (SetProfile arg w)).1.1.VmnetPidFile ∧
      (startCmd.RunE env arg w).2.trace.getLast? =
        some (Effect.run env.VmnetBinary
          ["--vmnet-mode", "shared", "--vmnet-gateway", env.VmnetGateway,
            "--vmnet-dhcp-end", env.VmnetDHCPEnd,
            "--pidfile", (info env (SetProfile arg w)).1.1.VmnetPidFile,
            Join [dir, "vmnet.ptp"] ++ "[]"]) ∧
      (w.fs (info env (SetProfile arg w)).1.1.VmnetPidFile ≠ none →
        Effect.run "pkill" ["-F", TrimSuffix (env.PTPFile arg).1 ".ptp" ++ ".pid"] ∈
          (stopCmd.RunE env arg w).2.trace) ∧
      ∀ ptp : String, (".ptp".data).isSuffixOf ptp.data = false →
        TrimSuffix ptp ".ptp" ++ ".pid" = ptp ++ ".pid" := by
  have hv : (info env (SetProfile arg w)).1.1.VmnetPidFile = Join [dir, "vmnet.pid"] := by
    simp [info, SetProfile, hdir]
  refine ⟨hv, ?_, ?_, ?_, ?_⟩
  · rw [hv]
    exact trimSuffix_join_ptp dir
  · rw [start_child_eq env arg w hchild, hv, ← trimSuffix_join_ptp dir, hptp]
    simp [CommandRun, vmnetArgs]
  · intro hex
    rw [hv] at hex
    rw [hptp, trimSuffix_join_ptp dir]
    obtain ⟨sv, hsv⟩ := Option.ne_none_iff_exists'.mp hex
    cases hr : (env.Run "pkill" ["-F", Join [dir, "vmnet.pid"]] w.fs).1 <;>
      cases hd : (env.Run "pkill" ["-F", Join [dir, "vmnet.pid"]] w.fs).2
          (Join [dir, "colima-daemon.pid"]) <;>
      cases hr2 : (env.Run "pkill" ["-F", Join [dir, "colima-daemon.pid"]]
          (env.Run "pkill" ["-F", Join [dir, "vmnet.pid"]] w.fs).2).1 <;>
      simp [stopCmd.RunE, info, SetProfile, hdir, stopLoop, osStat, hsv, hd, CommandRun,
        hr, hr2, logrus]
  · intro ptp h
    simp [TrimSuffix, h]

/-- C10, on the sample directory: the pidfile argument of start is the first file stop
signals. -/
theorem start_stop_agree_on_pidfile_witness :
    TrimSuffix (Join [sampleDir, "vmnet.ptp"]) ".ptp" ++ ".pid" =
      (info childEnv (SetProfile "dev" (freshWorld emptyFS))).1.1.VmnetPidFile :=
  (start_stop_agree_on_pidfile childEnv "dev" sampleDir (freshWorld emptyFS) rfl (by decide)
    (by decide)).2.1

end Vmnet
